import Mathlib

/-!
Verification of the kraksat-receiver request queue (`app/sender/__init__.py`)
and output-file parsing pipeline (`app/parser/outputparser.py`), as a shallow
embedding in Lean 4.

Modelling conventions:
* Python dicts with string keys/values become association lists (`Dict`);
  insertion keeps the Python semantics (replace in place if the key exists,
  append otherwise).
* Caller-supplied dicts are mutable objects.  To capture in-place mutation and
  aliasing, the store of dict objects is a `List Dict` (`heap` field) and a
  dict argument is an address (`Nat` index) into that store, as in a
  store-passing semantics.  `RequestData.data` holds such an address.
* Observer callbacks (`on_request_added`, `on_error`, Qt signals, loggers)
  become events accumulated in a trace.
* Blocking waits on condition variables are modelled by their observable
  post-state: a wait on `unpaused` completes exactly when the flag has been
  set to `False` by `set_paused`.  The number of other threads blocked on the
  `unpaused` condition is tracked in `pauseWaiters` so that the wake-one
  semantics of Python's `Condition.notify()` is visible.
* Nondeterministic environment interaction (submission outcomes of
  `api.create`, external `set_skip_current` calls, `mark_terminated` calls,
  data becoming readable) is supplied by explicit per-iteration oracles, and
  an unbounded loop is driven by the finite oracle list: an exhausted oracle
  yields `none` ("the loop is still running").
-/

/-- Python dict with string keys and values, as an association list in
insertion order. -/
abbrev Dict := List (String × String)

/-- `d[k] = v` in Python: replace the value in place if `k` is present,
otherwise append the new binding. -/
def dictInsert (d : Dict) (k v : String) : Dict :=
  if d.any (fun p => p.1 == k) then
    d.map (fun p => if p.1 == k then (k, v) else p)
  else
    d ++ [(k, v)]

/-- `RequestData = namedtuple('RequestData', 'id, module, url, data, files,
callback')`.  `data` and `files` are addresses of dict objects in the store;
`callback` is an opaque callback identifier. -/
structure RequestData where
  id : Nat
  module : String
  url : String
  data : Nat
  files : Option Nat
  callback : Option Nat
deriving Repr, DecidableEq

/-- State of a `Sender`: the next id to assign (starts at 1), the FIFO
`deque` (append at the back, `popleft` at the front), the `paused` and
`skip_current` flags, the number of threads currently blocked on the
`unpaused` condition, and the store of dict objects. -/
structure SenderState where
  id : Nat
  queue : List RequestData
  paused : Bool
  skip_current : Bool
  pauseWaiters : Nat
  heap : List Dict
deriving Repr, DecidableEq

/-- A freshly constructed `Sender` over a given store of dict objects:
`self.id = 1`, empty queue, not paused, no skip requested. -/
def initSender (heap : List Dict) : SenderState :=
  { id := 1, queue := [], paused := false, skip_current := false,
    pauseWaiters := 0, heap := heap }

/-- Observable notifications emitted by the sender (the `on_*` hooks /
Qt signals of `QtSender`). -/
inductive SenderEvent
  | requestAdded (r : RequestData)
  | requestProcessing (r : RequestData)
  | requestProcessed (r : RequestData)
  | pausedEvent (b : Bool)
  | errorEvent (r : RequestData) (exc : String)
  | callbackInvoked (c : Nat)
deriving Repr, DecidableEq

/-- `Sender.set_paused(paused)`: under `pause_lock`, set the flag; if
unpausing, `self.unpaused.notify()` wakes ONE waiting thread (Python's
`Condition.notify`, not `notify_all`); in every case call
`self.on_paused(paused)` with the new value. -/
def set_paused (s : SenderState) (paused : Bool) :
    SenderState × List SenderEvent :=
  let waiters := if paused then s.pauseWaiters else s.pauseWaiters - 1
  ({ s with paused := paused, pauseWaiters := waiters },
   [SenderEvent.pausedEvent paused])

/-- `Sender.set_skip_current()`: under the queue lock, set `skip_current`. -/
def set_skip_current (s : SenderState) : SenderState :=
  { s with skip_current := true }

/-- `Sender.add_request(module, url, data, files, append_timestamp,
callback)`.  If `append_timestamp`, write `data['timestamp'] = now` into the
caller's dict object (in place, at address `dataAddr`).  Then, under the
queue lock, build a `RequestData` carrying the current id and the SAME dict
address, increment the id, append to the queue; finally notify
`on_request_added`.  `now` stands for `api.encode_datetime(datetime.utcnow())`. -/
def add_request (s : SenderState) (module url : String) (dataAddr : Nat)
    (files : Option Nat) (append_timestamp : Bool) (callback : Option Nat)
    (now : String) : SenderState × RequestData × List SenderEvent :=
  let heap :=
    if append_timestamp then
      s.heap.set dataAddr (dictInsert (s.heap.getD dataAddr []) "timestamp" now)
    else s.heap
  let rd : RequestData :=
    { id := s.id, module := module, url := url, data := dataAddr,
      files := files, callback := callback }
  ({ s with heap := heap, id := s.id + 1, queue := s.queue ++ [rd] },
   rd, [SenderEvent.requestAdded rd])

/-- Arguments of one `add_request` call, for reasoning about call
sequences. -/
structure AddCall where
  module : String
  url : String
  dataAddr : Nat
  files : Option Nat
  append_timestamp : Bool
  callback : Option Nat
  now : String
deriving Repr

/-- Run a sequence of `add_request` calls, keeping only the state. -/
def runAdds (s : SenderState) : List AddCall → SenderState
  | [] => s
  | c :: cs =>
    runAdds (add_request s c.module c.url c.dataAddr c.files
      c.append_timestamp c.callback c.now).1 cs

/-- Outcome of one `self.api.create(...)` attempt: normal return, or a
`requests.exceptions.RequestException` / `APIError` carrying a message. -/
inductive AttemptOutcome
  | success
  | failure (exc : String)
deriving Repr, DecidableEq

/-- Environment behaviour for one iteration of the retry loop in
`process_request`: whether some other thread called `set_skip_current`
before the skip check of this iteration, and how the submission attempt of
this iteration would end. -/
structure EnvStep where
  setSkip : Bool
  outcome : AttemptOutcome
deriving Repr, DecidableEq

/-- How the retry loop of `process_request` exited: normal fall-through
after a successful submission, or the `break` taken when `skip_current` was
set. -/
inductive ExitMode
  | success
  | skipped
deriving Repr, DecidableEq

/-- The `while repeat:` retry loop of `Sender.process_request`, processing
the already-popped item `rd`.  Each iteration: (1) under `pause_lock`, if
paused, wait on `unpaused` (the wait completes exactly when the flag is
`False` again); (2) under the queue lock, if `skip_current`, clear it and
`break`; (3) notify `on_request_processing`; (4) attempt submission — on
success fall through, on `RequestException`/`APIError` notify `on_error`
with the request and the exception, call `self.set_paused(True)`, and repeat
with the SAME item.  `none` means the oracle ran out before the loop
exited. -/
def processLoop (s : SenderState) (rd : RequestData) :
    List EnvStep → Option (SenderState × List SenderEvent × ExitMode)
  | [] => none
  | step :: rest =>
    let s1 := if s.paused then { s with paused := false } else s
    let s2 := if step.setSkip then { s1 with skip_current := true } else s1
    if s2.skip_current then
      some ({ s2 with skip_current := false }, [], ExitMode.skipped)
    else
      match step.outcome with
      | AttemptOutcome.success =>
        some (s2, [SenderEvent.requestProcessing rd], ExitMode.success)
      | AttemptOutcome.failure exc =>
        let p := set_paused s2 true
        match processLoop p.1 rd rest with
        | none => none
        | some (s4, evs, m) =>
          some (s4, SenderEvent.requestProcessing rd ::
                      SenderEvent.errorEvent rd exc :: p.2 ++ evs, m)

/-- `Sender.process_request()`: block until the queue is non-empty (modelled
as `none` on an empty queue), `popleft` the head, run the retry loop, then —
whether the loop exited by success or by skip — notify
`on_request_processed` and invoke the item's callback if present. -/
def process_request (s : SenderState) (steps : List EnvStep) :
    Option (SenderState × List SenderEvent × ExitMode × RequestData) :=
  match s.queue with
  | [] => none
  | rd :: rest =>
    match processLoop { s with queue := rest } rd steps with
    | none => none
    | some (s2, evs, m) =>
      let cbEvs : List SenderEvent :=
        match rd.callback with
        | some c => [SenderEvent.callbackInvoked c]
        | none => []
      some (s2, evs ++ SenderEvent.requestProcessed rd :: cbEvs, m, rd)

/-! ## Output-file parsing pipeline (`app/parser/outputparser.py`) -/

/-- `OutputLine(msg_id, datetime.now(), line)`: the structured line record
the dispatcher builds on a successful `can_parse` match.  Timestamps are
abstract strings. -/
structure OutputLine where
  msg_id : String
  timestamp : String
  raw : String
deriving Repr, DecidableEq

/-- `ParseError`: message plus the `parser_name` attribute, absent unless
stamped by the dispatcher. -/
structure ParseErr where
  msg : String
  parser_name : Option String
deriving Repr, DecidableEq

/-- The capability a registered line-parser exposes to the dispatcher:
`can_parse` returns a message id or a falsy value (`none`); `parse` returns
a parsed record (possibly falsy, `none`) or raises a `ParseError` message;
`url` is the destination; `name` is the parser's class name. -/
structure ParserCap where
  name : String
  url : String
  can_parse : String → Option String
  parse : OutputLine → Except String (Option Dict)

/-- Observable effects of `BaseOutputParser.parse_line`: the
`on_line_parsed` / `on_line_parse_failed` hooks and the
`sender.add_request(parser_name, parser.url, data, append_timestamp=False)`
call made for a truthy parsed record. -/
inductive ParseEvent
  | lineParsed (ol : OutputLine)
  | lineParseFailed (ol : OutputLine)
  | requestQueued (module url : String) (data : Dict)
deriving Repr, DecidableEq

/-- `BaseOutputParser.parse_line(line)`: iterate over the registered parsers
in order; the first whose `can_parse` returns a truthy message id claims the
line.  Build an `OutputLine` with the current time, call `parse`; on a
`ParseError` notify `on_line_parse_failed`, stamp `e.parser_name`, and
re-raise; on success notify `on_line_parsed`, and if the record is truthy
write `data['timestamp'] = output_line.timestamp` and enqueue it via
`add_request` (with `append_timestamp=False`), then return.  If no parser
claims the line, raise `ParseError('Line was not parsed by any parser')`.
Returns the emitted events together with the raised error, if any. -/
def parse_line (parsers : List ParserCap) (now line : String) :
    List ParseEvent × Option ParseErr :=
  match parsers with
  | [] => ([], some { msg := "Line was not parsed by any parser",
                      parser_name := none })
  | p :: rest =>
    match p.can_parse line with
    | none => parse_line rest now line
    | some msg_id =>
      let ol : OutputLine := { msg_id := msg_id, timestamp := now, raw := line }
      match p.parse ol with
      | Except.error e =>
        ([ParseEvent.lineParseFailed ol],
         some { msg := e, parser_name := some p.name })
      | Except.ok none => ([ParseEvent.lineParsed ol], none)
      | Except.ok (some data) =>
        ([ParseEvent.lineParsed ol,
          ParseEvent.requestQueued p.name p.url
            (dictInsert data "timestamp" ol.timestamp)], none)

/-- `line.rstrip('\r\n')`: drop all trailing carriage-return and newline
characters. -/
def rstripCRLF (s : String) : String :=
  String.mk ((s.toList.reverse.dropWhile
    (fun c => c == '\r' || c == '\n')).reverse)

/-- Environment behaviour for one iteration of the read loop of
`BaseOutputParser.parse_file`: whether `mark_terminated` was called before
this iteration's `while not self.is_terminated` check, what `f.readline()`
returns (`""` = no data available), and the current time. -/
structure PollStep where
  termSet : Bool
  read : String
  now : String

/-- Observable effects of one run of the read loop: the 50 ms back-off sleep
taken on an empty read, the "Empty line received" warning, a `parse_line`
event, and the driving-loop logging of a caught `ParseError`. -/
inductive LoopEvent
  | slept
  | warnEmpty
  | pev (e : ParseEvent)
  | logged (e : ParseErr)
deriving Repr, DecidableEq

/-- The read loop of `BaseOutputParser.parse_file` (the file is already
open).  `while not self.is_terminated:` read a line; on `""` sleep ~50 ms
and retry; strip trailing `\r\n`; if the result is empty log a warning and
skip; otherwise `parse_line` it, catching a raised `ParseError` and logging
it before moving on.  `some trace` means the loop returned (the termination
flag was observed); `none` means the oracle ran out while the loop was still
running. -/
def parse_file_loop (ps : List ParserCap) :
    List PollStep → Bool → Option (List LoopEvent)
  | [], term => if term then some [] else none
  | step :: rest, term =>
    if term || step.termSet then some []
    else if step.read == "" then
      (parse_file_loop ps rest false).map (fun t => LoopEvent.slept :: t)
    else
      let line := rstripCRLF step.read
      if line == "" then
        (parse_file_loop ps rest false).map (fun t => LoopEvent.warnEmpty :: t)
      else
        let r := parse_line ps step.now line
        let iter := r.1.map LoopEvent.pev ++
          (match r.2 with
           | some e => [LoopEvent.logged e]
           | none => [])
        (parse_file_loop ps rest false).map (fun t => iter ++ t)

/-! ## Parser lifecycle manager (`ParserManager`) -/

/-- `ParserManager` state: whether a worker is currently running, the
resolved path, and the sticky `terminated_by_user` flag. -/
structure ManagerState where
  running : Bool
  path : Option String
  terminated_by_user : Bool
deriving Repr, DecidableEq

/-- What a call to `ParserManager.parse_file(path)` does, as seen by the
caller: raise `RuntimeError` ("busy"), return `None` after logging a
resolution failure, or spawn and start the worker. -/
inductive StartResult
  | busyError
  | notFoundReturn
  | started (path : String)
deriving Repr, DecidableEq

/-- `ParserManager.parse_file(path)`: raise `RuntimeError` if the worker is
already running; otherwise resolve the path — `Path(path).resolve()` is the
`resolve` oracle — and, on `FileNotFoundError`, log the failure and RETURN
(the exception is caught, not propagated); on success store the path, create
the worker and start it. -/
def manager_parse_file (s : ManagerState) (resolve : Except String String) :
    ManagerState × StartResult :=
  if s.running then (s, StartResult.busyError)
  else
    match resolve with
    | Except.error _ => (s, StartResult.notFoundReturn)
    | Except.ok p =>
      ({ s with path := some p, running := true }, StartResult.started p)

/-- A freshly constructed `ParserManager`. -/
def initMgr : ManagerState :=
  { running := false, path := none, terminated_by_user := false }

/-- Lifecycle actions on a `ParserManager`: a successful `parse_file` start,
a `terminate()` call, and the worker thread exiting (its `finished` signal
invoking `_on_parser_terminated`). -/
inductive MgrAction
  | start
  | userTerminate
  | workerExit
deriving Repr, DecidableEq

/-- The cause `_on_parser_terminated` reports for a worker exit: terminated
by the user (info log) or unexpectedly (warning log). -/
inductive TermCause
  | user
  | unexpected
deriving Repr, DecidableEq

/-- One lifecycle step.  `terminate()` sets `terminated_by_user := True`
only if the worker is running (and nowhere is the flag ever reset);
`_on_parser_terminated` reports `user` when the flag is set and `unexpected`
otherwise. -/
def mgrStep (s : ManagerState) : MgrAction → ManagerState × Option TermCause
  | MgrAction.start => ({ s with running := true }, none)
  | MgrAction.userTerminate =>
    (if s.running then { s with terminated_by_user := true } else s, none)
  | MgrAction.workerExit =>
    if s.running then
      ({ s with running := false },
       some (if s.terminated_by_user then TermCause.user
             else TermCause.unexpected))
    else (s, none)

/-- Run a lifecycle trace, collecting the reported termination causes in
order. -/
def mgrRun (s : ManagerState) : List MgrAction → ManagerState × List TermCause
  | [] => (s, [])
  | a :: rest =>
    let r := mgrStep s a
    let r2 := mgrRun r.1 rest
    (r2.1,
     (match r.2 with
      | some c => [c]
      | none => []) ++ r2.2)

/-! ## Helper lemmas -/

/-- The ids in the queue after a sequence of `add_request` calls are the old
ids followed by consecutive ids counting up from the pre-state's counter. -/
theorem runAdds_queue_ids (calls : List AddCall) :
    ∀ s : SenderState, (runAdds s calls).queue.map (fun r => r.id) =
      s.queue.map (fun r => r.id) ++ List.range' s.id calls.length := by
  induction calls with
  | nil => intro s; simp [runAdds]
  | cons c cs ih =>
    intro s
    rw [runAdds, ih]
    simp [add_request, List.range'_succ]

/-- Invariants of the retry loop: it never touches the queue, never emits a
`requestProcessed` or `callbackInvoked` event, and on a skip exit it leaves
`skip_current` cleared. -/
theorem processLoop_invariants (steps : List EnvStep) :
    ∀ s rd s' evs m, processLoop s rd steps = some (s', evs, m) →
      s'.queue = s.queue
      ∧ (∀ r, SenderEvent.requestProcessed r ∉ evs)
      ∧ (∀ c, SenderEvent.callbackInvoked c ∉ evs)
      ∧ (m = ExitMode.skipped → s'.skip_current = false) := by
  induction steps with
  | nil => intro s rd s' evs m h; simp [processLoop] at h
  | cons step rest ih =>
    intro s rd s' evs m h
    simp only [processLoop] at h
    by_cases hss : step.setSkip = true
    · simp only [hss, ite_true, if_true] at h
      simp only [Option.some.injEq, Prod.mk.injEq] at h
      obtain ⟨h1, h2, h3⟩ := h
      subst h1; subst h2; subst h3
      refine ⟨?_, by simp, by simp, fun _ => rfl⟩
      by_cases hpa : s.paused = true <;> simp [hpa]
    · simp only [hss, ite_false, if_false, Bool.false_eq_true] at h
      by_cases hsc : s.skip_current = true
      · by_cases hpa : s.paused = true <;>
          simp only [hpa, hsc, ite_true, ite_false, if_true, if_false,
            Bool.false_eq_true, Option.some.injEq, Prod.mk.injEq] at h <;>
        · obtain ⟨h1, h2, h3⟩ := h
          subst h1; subst h2; subst h3
          exact ⟨rfl, by simp, by simp, fun _ => rfl⟩
      · cases hout : step.outcome with
        | success =>
          by_cases hpa : s.paused = true <;>
            simp only [hpa, hsc, hout, ite_true, ite_false, if_true, if_false,
              Bool.false_eq_true, Option.some.injEq, Prod.mk.injEq] at h <;>
          · obtain ⟨h1, h2, h3⟩ := h
            subst h1; subst h2; subst h3
            exact ⟨rfl, by simp, by simp, by simp⟩
        | failure exc =>
          by_cases hpa : s.paused = true <;>
            simp only [hpa, hsc, hout, ite_true, ite_false, if_true, if_false,
              Bool.false_eq_true, set_paused] at h <;>
          · split at h
            · exact absurd h (by simp)
            · rename_i res s4 evs4 m4 hres
              simp only [Option.some.injEq, Prod.mk.injEq] at h
              obtain ⟨h1, h2, h3⟩ := h
              subst h1; subst h2; subst h3
              obtain ⟨hq, hnp, hnc, hsk⟩ := ih _ _ _ _ _ hres
              refine ⟨by simpa using hq, ?_, ?_, hsk⟩
              · intro r; simp [hnp r]
              · intro c; simp [hnc c]

/-! ## Concrete sample objects used by witnesses -/

/-- A sample `add_request` argument tuple. -/
def sampleCallA : AddCall :=
  { module := "GPSParser", url := "/gps", dataAddr := 0, files := none,
    append_timestamp := true, callback := none, now := "2016-01-01T00:00:00" }

/-- A second sample `add_request` argument tuple. -/
def sampleCallB : AddCall :=
  { module := "TelemetryParser", url := "/telemetry", dataAddr := 0,
    files := none, append_timestamp := true, callback := none,
    now := "2016-01-01T00:00:01" }

/-- A sample queued request with id 1. -/
def sampleReq : RequestData :=
  { id := 1, module := "GPSParser", url := "/gps", data := 0, files := none,
    callback := none }

/-- A sample sender state holding exactly `sampleReq`, as after one
`add_request` on a fresh sender. -/
def sampleSender : SenderState :=
  { id := 2, queue := [sampleReq], paused := false, skip_current := false,
    pauseWaiters := 0, heap := [[("timestamp", "2016-01-01T00:00:00")]] }

/-- An iteration oracle entry: no external skip, submission succeeds. -/
def stepOk : EnvStep :=
  { setSkip := false, outcome := AttemptOutcome.success }

/-- An iteration oracle entry: no external skip, submission raises. -/
def stepFail : EnvStep :=
  { setSkip := false, outcome := AttemptOutcome.failure "connection refused" }

/-- A concrete line-parser capability behaving like `GPSParser` on two fixed
lines: it claims the lines starting with the `$GPGGA` message id and fails
validation on the malformed one. -/
def gpsCap : ParserCap :=
  { name := "GPSParser", url := "/gps",
    can_parse := fun l =>
      if l == "$GPGGA,ok" then some "GPGGA"
      else if l == "$GPGGA,bad" then some "GPGGA"
      else none,
    parse := fun ol =>
      if ol.raw == "$GPGGA,ok" then Except.ok (some [("latitude", "50.06")])
      else Except.error "validation failed" }

/-! ## Claim theorems -/

/-- Claim C1 (confirmed): the ids assigned by a sequence of `add_request`
calls on a fresh `Sender` are the strictly increasing consecutive integers
1, 2, …, n (assigned under the queue lock, the counter never reused), and
`process_request` removes exactly one item per call — the head of the FIFO
queue, i.e. the item with the least id — leaving the rest untouched. -/
theorem sender_fifo_ids (heap : List Dict) (calls : List AddCall)
    (s s' : SenderState) (hd rd : RequestData) (t : List RequestData)
    (steps : List EnvStep) (evs : List SenderEvent) (m : ExitMode)
    (hq : s.queue = hd :: t)
    (hp : process_request s steps = some (s', evs, m, rd)) :
    (runAdds (initSender heap) calls).queue.map (fun r => r.id) =
      List.range' 1 calls.length
    ∧ rd = hd ∧ s'.queue = t := by
  refine ⟨by simpa [initSender] using runAdds_queue_ids calls (initSender heap),
    ?_⟩
  simp only [process_request, hq] at hp
  cases hres : processLoop { s with queue := t } hd steps with
  | none => rw [hres] at hp; exact absurd hp (by simp)
  | some val =>
    obtain ⟨s2, evs2, m2⟩ := val
    rw [hres] at hp
    simp only [Option.some.injEq, Prod.mk.injEq] at hp
    obtain ⟨h1, _, _, h4⟩ := hp
    obtain ⟨hqeq, -, -, -⟩ := processLoop_invariants steps _ _ _ _ _ hres
    subst h1
    exact ⟨h4.symm, by simpa using hqeq⟩

/-- Witness for C1 at concrete inputs: two adds give ids [1, 2]; one
`process_request` on a singleton queue pops exactly that item. -/
theorem sender_fifo_ids_witness :
    (runAdds (initSender [[]]) [sampleCallA, sampleCallB]).queue.map
        (fun r => r.id) = List.range' 1 [sampleCallA, sampleCallB].length
    ∧ sampleReq = sampleReq
    ∧ ({ sampleSender with queue := [] } : SenderState).queue =
        ([] : List RequestData) :=
  sender_fifo_ids [[]] [sampleCallA, sampleCallB] sampleSender
    { sampleSender with queue := [] } sampleReq sampleReq [] [stepOk]
    [SenderEvent.requestProcessing sampleReq,
     SenderEvent.requestProcessed sampleReq] ExitMode.success
    (by decide) (by decide)

/-- Claim C2 (confirmed): when a submission attempt fails with a network or
API-level error, the current iteration notifies `on_error` with the very
request being processed and the captured exception, auto-pauses the queue
via `set_paused(True)` (whose `on_paused True` notification follows), and
the retry loop re-enters at the pause check with the SAME `RequestData`
item — the continuation is exactly the loop run on the same `rd` from a
paused state, so the item is never discarded, replaced or reordered. -/
theorem sender_error_pauses_and_retries_same (s : SenderState)
    (rd : RequestData) (exc : String) (rest : List EnvStep)
    (hskip : s.skip_current = false) :
    processLoop s rd
      ({ setSkip := false, outcome := AttemptOutcome.failure exc } :: rest) =
      (processLoop { s with paused := true } rd rest).map
        (fun r => (r.1,
          SenderEvent.requestProcessing rd :: SenderEvent.errorEvent rd exc ::
            SenderEvent.pausedEvent true :: r.2.1, r.2.2)) := by
  obtain ⟨i, q, pa, sk, w, hstore⟩ := s
  replace hskip : sk = false := hskip
  subst hskip
  cases pa <;>
  · simp only [processLoop, set_paused, ite_true, ite_false, if_true,
      if_false, Bool.false_eq_true]
    cases hres : processLoop
        { id := i, queue := q, paused := true, skip_current := false,
          pauseWaiters := w, heap := hstore } rd rest with
    | none => simp [hres]
    | some val => obtain ⟨s4, evs4, m4⟩ := val; simp [hres]

/-- Witness for C2 at concrete inputs: a failing submission followed by a
successful one retries the same sample request after pausing. -/
theorem sender_error_pauses_and_retries_same_witness :
    processLoop sampleSender sampleReq [stepFail, stepOk] =
      (processLoop { sampleSender with paused := true } sampleReq
        [stepOk]).map
        (fun r => (r.1,
          SenderEvent.requestProcessing sampleReq ::
            SenderEvent.errorEvent sampleReq "connection refused" ::
            SenderEvent.pausedEvent true :: r.2.1, r.2.2)) :=
  sender_error_pauses_and_retries_same sampleSender sampleReq
    "connection refused" [stepOk] (by decide)

/-- Claim C6 (confirmed): whenever `process_request` pops an item and its
retry loop terminates, it does so either by a successful submission or by a
one-shot skip (which clears the `skip_current` flag); in both cases the
`on_request_processed` observer is notified exactly once for that item and
its callback, when present, is invoked exactly once (never when absent). -/
theorem sender_processed_callback_once (s s' : SenderState)
    (steps : List EnvStep) (evs : List SenderEvent) (m : ExitMode)
    (rd : RequestData)
    (h : process_request s steps = some (s', evs, m, rd)) :
    (m = ExitMode.success ∨ m = ExitMode.skipped)
    ∧ evs.count (SenderEvent.requestProcessed rd) = 1
    ∧ (∀ c, rd.callback = some c →
        evs.count (SenderEvent.callbackInvoked c) = 1)
    ∧ (rd.callback = none →
        ∀ c, evs.count (SenderEvent.callbackInvoked c) = 0)
    ∧ (m = ExitMode.skipped → s'.skip_current = false) := by
  cases hq : s.queue with
  | nil =>
    simp only [process_request, hq] at h
    exact Option.noConfusion h
  | cons hd t =>
    simp only [process_request, hq] at h
    cases hres : processLoop { s with queue := t } hd steps with
    | none => rw [hres] at h; exact Option.noConfusion h
    | some val =>
      obtain ⟨s2, evs2, m2⟩ := val
      rw [hres] at h
      simp only [Option.some.injEq, Prod.mk.injEq] at h
      obtain ⟨h1, h2, h3, h4⟩ := h
      subst h1; subst h2; subst h3; subst h4
      obtain ⟨-, hnp, hnc, hsk⟩ := processLoop_invariants steps _ _ _ _ _ hres
      refine ⟨by cases m2 <;> simp, ?_, ?_, ?_, hsk⟩
      · cases hcb : hd.callback <;>
          simp [hcb, List.count_append, List.count_cons, beq_iff_eq,
            List.count_eq_zero.mpr (hnp hd)]
      · intro c hc
        simp [hc, List.count_append, List.count_cons, beq_iff_eq,
          List.count_eq_zero.mpr (hnc c)]
      · intro hc c
        simp [hc, List.count_append, List.count_cons, beq_iff_eq,
          List.count_eq_zero.mpr (hnc c)]

/-- Witness for C6 at concrete inputs: a skip requested before processing
abandons the sample item, clears the flag, and still notifies
`on_request_processed` exactly once (the sample request has no callback). -/
theorem sender_processed_callback_once_witness :
    (ExitMode.skipped = ExitMode.success ∨
      ExitMode.skipped = ExitMode.skipped)
    ∧ List.count (SenderEvent.requestProcessed sampleReq)
        [SenderEvent.requestProcessed sampleReq] = 1
    ∧ (∀ c, sampleReq.callback = some c →
        List.count (SenderEvent.callbackInvoked c)
          [SenderEvent.requestProcessed sampleReq] = 1)
    ∧ (sampleReq.callback = none →
        ∀ c, List.count (SenderEvent.callbackInvoked c)
          [SenderEvent.requestProcessed sampleReq] = 0)
    ∧ (ExitMode.skipped = ExitMode.skipped →
        ({ sampleSender with queue := [] } : SenderState).skip_current =
          false) :=
  sender_processed_callback_once { sampleSender with skip_current := true }
    { sampleSender with queue := [] } [stepOk]
    [SenderEvent.requestProcessed sampleReq] ExitMode.skipped sampleReq
    (by decide)

/-- Claim C9 (counterexample): the claim says unpausing "wakes all threads
waiting on the unpaused condition", but `set_paused(False)` calls
`Condition.notify()`, which wakes at most ONE waiter: with two threads
blocked on `unpaused`, one remains blocked after the call. -/
theorem set_paused_does_not_wake_all :
    ((set_paused { sampleSender with paused := true, pauseWaiters := 2 }
      false).1.pauseWaiters = 1)
    ∧ ¬((set_paused { sampleSender with paused := true, pauseWaiters := 2 }
      false).1.pauseWaiters = 0) := by
  decide

/-- Claim C9 (amended, proved): `set_paused(b)` sets the paused flag to `b`
under the pause lock; when unpausing it wakes ONE thread waiting on the
unpaused condition (`Condition.notify`, not `notify_all`); in every case it
notifies the paused observers with the new flag value. -/
theorem set_paused_spec (s : SenderState) (b : Bool) :
    ((set_paused s b).1.paused = b)
    ∧ ((set_paused s b).2 = [SenderEvent.pausedEvent b])
    ∧ (b = false →
        (set_paused s b).1.pauseWaiters = s.pauseWaiters - 1)
    ∧ (b = true → (set_paused s b).1.pauseWaiters = s.pauseWaiters) := by
  cases b <;> simp [set_paused]

/-- Witness for the amended C9 at a concrete input. -/
theorem set_paused_spec_witness :
    ((set_paused sampleSender false).1.paused = false)
    ∧ ((set_paused sampleSender false).2 = [SenderEvent.pausedEvent false])
    ∧ (set_paused sampleSender false).1.pauseWaiters =
        sampleSender.pauseWaiters - 1 := by
  obtain ⟨h1, h2, h3, h4⟩ := set_paused_spec sampleSender false
  exact ⟨h1, h2, h3 rfl⟩

/-- Claim C4 (confirmed): for a line claimed by parser `p` via `can_parse`
(after the parsers before it all declined) whose `parse` raises a
`ParseError`, `parse_line` notifies the line-parse-failed observer, stamps
the raised error's `parser_name` with `p`'s class name, and re-raises it to
the driving loop; the parsers after `p` are never consulted — the result
does not depend on `post` at all. -/
theorem dispatch_fail_attribution (pre : List ParserCap) (p : ParserCap)
    (post : List ParserCap) (now line msg emsg : String)
    (hpre : ∀ q ∈ pre, q.can_parse line = none)
    (hcan : p.can_parse line = some msg)
    (hfail : p.parse { msg_id := msg, timestamp := now, raw := line } =
      Except.error emsg) :
    parse_line (pre ++ p :: post) now line =
      ([ParseEvent.lineParseFailed
          { msg_id := msg, timestamp := now, raw := line }],
       some { msg := emsg, parser_name := some p.name }) := by
  induction pre with
  | nil => simp [parse_line, hcan, hfail]
  | cons q qs ih =>
    have hq := hpre q (by simp)
    simp only [List.cons_append, parse_line, hq]
    exact ih (fun x hx => hpre x (by simp [hx]))

/-- Witness for C4 at a concrete input: the sample GPS capability claims
the malformed line and its failure is attributed to GPSParser. -/
theorem dispatch_fail_attribution_witness :
    parse_line ([] ++ gpsCap :: []) "ts0" "$GPGGA,bad" =
      ([ParseEvent.lineParseFailed
          { msg_id := "GPGGA", timestamp := "ts0", raw := "$GPGGA,bad" }],
       some { msg := "validation failed", parser_name := some "GPSParser" }) :=
  dispatch_fail_attribution [] gpsCap [] "ts0" "$GPGGA,bad" "GPGGA"
    "validation failed" (by simp) (by decide) (by simp [gpsCap])

/-- Claim C5 (confirmed): when no registered parser's `can_parse` returns a
truthy message id, `parse_line` raises the generic "unparsed line"
`ParseError` with no `parser_name` and does NOT invoke the line-parse-failed
observer (no event at all is emitted); the driving loop of `parse_file`
catches it, logs it, and continues with the next line. -/
theorem dispatch_unmatched_generic (ps : List ParserCap) (line : String)
    (h : ∀ p ∈ ps, p.can_parse line = none) :
    (∀ now, parse_line ps now line =
      ([], some { msg := "Line was not parsed by any parser",
                  parser_name := none }))
    ∧ (∀ raw now rest, rstripCRLF raw = line → raw ≠ "" → line ≠ "" →
        parse_file_loop ps
            ({ termSet := false, read := raw, now := now } :: rest) false =
          (parse_file_loop ps rest false).map
            (fun t => LoopEvent.logged
              { msg := "Line was not parsed by any parser",
                parser_name := none } :: t)) := by
  have hgen : ∀ now, parse_line ps now line =
      ([], some { msg := "Line was not parsed by any parser",
                  parser_name := none }) := by
    intro now
    induction ps with
    | nil => simp [parse_line]
    | cons q qs ih =>
      have hq := h q (by simp)
      simp only [parse_line, hq]
      exact ih (fun x hx => h x (by simp [hx]))
  refine ⟨hgen, ?_⟩
  intro raw now rest hstrip hraw hline
  simp only [parse_file_loop, Bool.false_or, hstrip, hgen now,
    beq_iff_eq, hraw, hline, ite_false, if_false]
  simp [hraw, hline]

/-- Witness for C5 at a concrete input: no capability claims "garbage", so
the generic unparsed-line error is raised with no parser_name and no
observer event, and the driving loop logs it and moves on. -/
theorem dispatch_unmatched_generic_witness :
    (parse_line [gpsCap] "ts1" "garbage" =
      ([], some { msg := "Line was not parsed by any parser",
                  parser_name := none }))
    ∧ (parse_file_loop [gpsCap]
          ({ termSet := false, read := "garbage\n", now := "ts1" } :: [])
          false =
        (parse_file_loop [gpsCap] [] false).map
          (fun t => LoopEvent.logged
            { msg := "Line was not parsed by any parser",
              parser_name := none } :: t)) := by
  have h := dispatch_unmatched_generic [gpsCap] "garbage" (by decide)
  exact ⟨h.1 "ts1", h.2 "garbage\n" "ts1" [] (by decide) (by decide)
    (by decide)⟩

/-- Claim C7 (confirmed): the read loop of `parse_file` never returns
because of end-of-file — if `mark_terminated` is never called the loop runs
for ever; an empty read only produces the ~50 ms sleep and a retry; and a
line that is empty after stripping trailing CR/LF is logged as a warning and
skipped, never dispatched (no parse event appears for it). -/
theorem tail_reader_never_stops_on_eof (ps : List ParserCap) :
    (∀ steps : List PollStep, (∀ x ∈ steps, x.termSet = false) →
      parse_file_loop ps steps false = none)
    ∧ (∀ (step : PollStep) (rest : List PollStep), step.termSet = false →
        step.read = "" →
        parse_file_loop ps (step :: rest) false =
          (parse_file_loop ps rest false).map
            (fun t => LoopEvent.slept :: t))
    ∧ (∀ (step : PollStep) (rest : List PollStep), step.termSet = false →
        step.read ≠ "" → rstripCRLF step.read = "" →
        parse_file_loop ps (step :: rest) false =
          (parse_file_loop ps rest false).map
            (fun t => LoopEvent.warnEmpty :: t)) := by
  refine ⟨?_, ?_, ?_⟩
  · intro steps h
    induction steps with
    | nil => simp [parse_file_loop]
    | cons step rest ih =>
      have hts := h step (by simp)
      have ih' := ih (fun x hx => h x (by simp [hx]))
      by_cases h1 : step.read = ""
      · simp [parse_file_loop, hts, h1, ih']
      · by_cases h2 : rstripCRLF step.read = ""
        · simp [parse_file_loop, hts, beq_iff_eq, h1, h2, ih']
        · simp [parse_file_loop, hts, beq_iff_eq, h1, h2, ih']
  · intro step rest hts hread
    simp [parse_file_loop, hts, hread]
  · intro step rest hts hread hstrip
    simp [parse_file_loop, hts, beq_iff_eq, hread, hstrip]

/-- Witness for C7 at concrete inputs: with the termination flag never set,
a run of empty reads leaves the loop still running; a single empty read
prepends only the sleep event; a bare-newline read prepends only the
warning. -/
theorem tail_reader_never_stops_on_eof_witness :
    (parse_file_loop [gpsCap]
        [{ termSet := false, read := "", now := "t" }] false = none)
    ∧ (parse_file_loop [gpsCap]
          ({ termSet := false, read := "", now := "t" } :: []) false =
        (parse_file_loop [gpsCap] [] false).map
          (fun t => LoopEvent.slept :: t))
    ∧ (parse_file_loop [gpsCap]
          ({ termSet := false, read := "\r\n", now := "t" } :: []) false =
        (parse_file_loop [gpsCap] [] false).map
          (fun t => LoopEvent.warnEmpty :: t)) := by
  have h := tail_reader_never_stops_on_eof [gpsCap]
  exact ⟨h.1 [{ termSet := false, read := "", now := "t" }] (by decide),
    h.2.1 { termSet := false, read := "", now := "t" } [] (by decide)
      (by decide),
    h.2.2 { termSet := false, read := "\r\n", now := "t" } [] (by decide)
      (by decide) (by decide)⟩

/-- Claim C3 (code bug, evaluated): `ParserManager.parse_file`'s own
docstring promises `:raise FileNotFoundError: if the raw data file does not
exist`, and the claim says the "not found" error is surfaced synchronously
to the caller; but the code wraps `Path(path).resolve()` in
`try/except FileNotFoundError`, logs, and RETURNS `None` — the caller sees a
normal return (`notFoundReturn`), not a raised error, though indeed no
worker is spawned.  The "busy" half does behave as claimed: a second start
while running raises `RuntimeError`. -/
theorem manager_start_swallows_not_found :
    (manager_parse_file initMgr (Except.error "No such file or directory") =
      (initMgr, StartResult.notFoundReturn))
    ∧ ((manager_parse_file initMgr
        (Except.error "No such file or directory")).1.running = false)
    ∧ (manager_parse_file { initMgr with running := true }
        (Except.ok "/data/raw.txt") =
      ({ initMgr with running := true }, StartResult.busyError)) := by
  decide

/-- Claim C8 (counterexample): run a worker, stop it with `terminate()`
(reported: user), start a second worker and let it exit with NO `terminate()`
call during its run — the code still reports the user-initiated cause for
the second exit, because `terminated_by_user` is never reset; the claim
demands `[user, unexpected]`. -/
theorem mgr_stale_user_cause :
    ((mgrRun initMgr [MgrAction.start, MgrAction.userTerminate,
        MgrAction.workerExit, MgrAction.start, MgrAction.workerExit]).2 =
      [TermCause.user, TermCause.user])
    ∧ ((mgrRun initMgr [MgrAction.start, MgrAction.userTerminate,
        MgrAction.workerExit, MgrAction.start, MgrAction.workerExit]).2 ≠
      [TermCause.user, TermCause.unexpected]) := by
  decide

/-- Claim C8 (amended, proved): the cause reported when a running worker
exits is user-initiated exactly when the sticky `terminated_by_user` flag is
set at that moment; `terminate()` during a run sets the flag, and NO
lifecycle action ever clears it — so a user stop in any earlier run also
marks later exits as user-initiated, and only a manager on which
`terminate()` has never been called reports an unexpected exit. -/
theorem mgr_cause_reflects_sticky_flag (s : ManagerState)
    (h : s.running = true) :
    ((mgrStep s MgrAction.workerExit).2 =
      some (if s.terminated_by_user then TermCause.user
            else TermCause.unexpected))
    ∧ ((mgrStep s MgrAction.userTerminate).1.terminated_by_user = true)
    ∧ (∀ a, s.terminated_by_user = true →
        ((mgrStep s a).1).terminated_by_user = true) := by
  refine ⟨by simp [mgrStep, h], by simp [mgrStep, h], ?_⟩
  intro a htb
  cases a <;> by_cases hr : s.running = true <;> simp [mgrStep, hr, htb]

/-- Witness for the amended C8 at concrete states: with the flag set the
exit is reported user-initiated; with it clear, unexpected. -/
theorem mgr_cause_reflects_sticky_flag_witness :
    ((mgrStep { running := true, path := none, terminated_by_user := true }
        MgrAction.workerExit).2 = some TermCause.user)
    ∧ ((mgrStep { running := true, path := none, terminated_by_user := false } MgrAction.workerExit).2 = some TermCause.unexpected) := by
  have h1 := (mgr_cause_reflects_sticky_flag
    { running := true, path := none, terminated_by_user := true } rfl).1
  have h2 := (mgr_cause_reflects_sticky_flag
    { running := true, path := none, terminated_by_user := false } rfl).1
  exact ⟨by simpa using h1, by simpa using h2⟩

/-- Claim C10 (confirmed): `add_request` with `append_timestamp=True` writes
the 'timestamp' key into the caller-supplied dict object in place (the store
at the caller's address now holds the stamped dict) before enqueueing, and
the queued `RequestData` holds the SAME address — an alias, not a copy — so
the caller observes the mutation on its own dict; likewise the dispatcher
writes 'timestamp' into the parsed record it enqueues. -/
theorem add_request_mutates_and_aliases (s : SenderState) (a : Nat)
    (module url now : String) (files cb : Option Nat) (p : ParserCap)
    (line ts msg : String) (d : Dict)
    (ha : a < s.heap.length)
    (hcan : p.can_parse line = some msg)
    (hp : p.parse { msg_id := msg, timestamp := ts, raw := line } =
      Except.ok (some d)) :
    ((add_request s module url a files true cb now).2.1.data = a)
    ∧ ((add_request s module url a files true cb now).1.heap[a]? =
        some (dictInsert (s.heap.getD a []) "timestamp" now))
    ∧ parse_line [p] ts line =
        ([ParseEvent.lineParsed
            { msg_id := msg, timestamp := ts, raw := line },
          ParseEvent.requestQueued p.name p.url
            (dictInsert d "timestamp" ts)],
         none) := by
  refine ⟨rfl, ?_, by simp [parse_line, hcan, hp]⟩
  simp only [add_request, ite_true, if_true]
  exact List.getElem?_set_eq_of_lt _ ha

/-- Witness for C10 at concrete inputs: adding a request with address 0 into
a one-dict store stamps the dict at address 0 and aliases it from the queued
item, and the dispatcher stamps the record parsed from the sample GPS
line. -/
theorem add_request_mutates_and_aliases_witness :
    ((add_request sampleSender "GPSParser" "/gps" 0 none true none
        "T1").2.1.data = 0)
    ∧ ((add_request sampleSender "GPSParser" "/gps" 0 none true none
        "T1").1.heap[0]? =
        some (dictInsert (sampleSender.heap.getD 0 []) "timestamp" "T1"))
    ∧ parse_line [gpsCap] "T1" "$GPGGA,ok" =
        ([ParseEvent.lineParsed
            { msg_id := "GPGGA", timestamp := "T1", raw := "$GPGGA,ok" },
          ParseEvent.requestQueued gpsCap.name gpsCap.url
            (dictInsert [("latitude", "50.06")] "timestamp" "T1")],
         none) :=
  add_request_mutates_and_aliases sampleSender 0 "GPSParser" "/gps" "T1"
    none none gpsCap "$GPGGA,ok" "T1" "GPGGA" [("latitude", "50.06")]
    (by decide) (by decide) (by simp [gpsCap])
